import Mathlib

/-!
Verification of the canvas engine of the `aboard_reserve` whiteboard
(`src/main.py`).  The engine state (`WhiteboardArea`) is embedded as the
record `Board`; the GTK event handlers (`on_scroll`, `on_button_press`,
`on_motion`, `on_button_release`), the document-model mutators
(`add_text`, `add_image`, `clear`) and the serializer
(`get_board_data` / `load_board_data`) become pure state transformers.
Screen and world coordinates, offsets and the zoom factor are modelled
by exact rationals (`ℚ`), so the "within floating-point tolerance"
clauses of the specification become exact equalities.  Colors are RGB
triples of rationals; the raster payload of an image is not observable
by any verified operation and is omitted from `ImageItem` (position and
the two stored dimensions are kept).  The application-level context that
`WhiteboardArea` reads through `self.app` (background color, brush
color, eraser flag, current tool, current shape type) is the record
`AppCtx`.
-/

namespace Aboard

abbrev Color : Type := ℚ × ℚ × ℚ

abbrev Point : Type := ℚ × ℚ

/-- Tool selection, `self.app.current_tool` in the source
(`'brush'`, `'shape'`, `'text'`). -/
inductive Tool : Type where
  | brush : Tool
  | shape : Tool
  | text : Tool
deriving DecidableEq

/-- Shape type tag, `self.app.current_shape_type` in the source. -/
inductive ShapeType : Type where
  | rect : ShapeType
  | circle : ShapeType
  | triangle : ShapeType
  | arrow : ShapeType
deriving DecidableEq

/-- A stroke dict: `{'points', 'color', 'size', 'is_eraser'}`. -/
structure Stroke where
  points : List Point
  color : Color
  size : ℤ
  is_eraser : Bool
deriving DecidableEq

/-- A shape dict: `{'type', 'x', 'y', 'w', 'h', 'color', 'size'}`. -/
structure Shape where
  type : ShapeType
  x : ℚ
  y : ℚ
  w : ℚ
  h : ℚ
  color : Color
  size : ℤ
deriving DecidableEq

/-- A text item dict: `{'text', 'x', 'y', 'color', 'font_size'}`. -/
structure TextItem where
  text : String
  x : ℚ
  y : ℚ
  color : Color
  font_size : ℤ
deriving DecidableEq

/-- An image dict `{'pixbuf', 'x', 'y', 'width', 'height'}`; the decoded
raster payload (`pixbuf`) is opaque to every verified operation and is
omitted here. -/
structure ImageItem where
  x : ℚ
  y : ℚ
  width : ℤ
  height : ℤ
deriving DecidableEq

/-- The mutable state of `WhiteboardArea` (`src/main.py`, `__init__`). -/
structure Board where
  strokes : List Stroke
  current_stroke : Option Stroke
  brush_size : ℤ
  shapes : List Shape
  current_shape : Option Shape
  shape_start_x : ℚ
  shape_start_y : ℚ
  text_items : List TextItem
  images : List ImageItem
  offset_x : ℚ
  offset_y : ℚ
  is_panning : Bool
  pan_start_x : ℚ
  pan_start_y : ℚ
  zoom : ℚ
deriving DecidableEq

/-- The application-level fields `WhiteboardArea` reads via `self.app`. -/
structure AppCtx where
  bg_color : Color
  brush_color : Color
  eraser_mode : Bool
  current_tool : Tool
  current_shape_type : ShapeType
deriving DecidableEq

/-- `self.min_zoom = 0.1`. -/
def min_zoom : ℚ := 1 / 10

/-- `self.max_zoom = 5.0`. -/
def max_zoom : ℚ := 5

/-- The state set up by `WhiteboardArea.__init__` (together with the
`WhiteboardApp` defaults that do not live on the board). -/
def initialBoard : Board :=
  { strokes := [], current_stroke := none, brush_size := 3, shapes := [],
    current_shape := none, shape_start_x := 0, shape_start_y := 0,
    text_items := [], images := [], offset_x := 0, offset_y := 0,
    is_panning := false, pan_start_x := 0, pan_start_y := 0, zoom := 1 }

/-- The `WhiteboardApp.__init__` defaults: white background, black brush,
eraser off, brush tool, rectangle shape type. -/
def initialApp : AppCtx :=
  { bg_color := (1, 1, 1), brush_color := (0, 0, 0), eraser_mode := false,
    current_tool := Tool.brush, current_shape_type := ShapeType.rect }

/-- `WhiteboardArea.screen_to_world`:
`return (sx - self.offset_x) / self.zoom, (sy - self.offset_y) / self.zoom`. -/
def screen_to_world (b : Board) (sx sy : ℚ) : ℚ × ℚ :=
  ((sx - b.offset_x) / b.zoom, (sy - b.offset_y) / b.zoom)

/-- `WhiteboardArea.world_to_screen`:
`return wx * self.zoom + self.offset_x, wy * self.zoom + self.offset_y`. -/
def world_to_screen (b : Board) (wx wy : ℚ) : ℚ × ℚ :=
  (wx * b.zoom + b.offset_x, wy * b.zoom + b.offset_y)

/-- The scroll directions distinguished by `WhiteboardArea.on_scroll`
(`Gdk.ScrollDirection.UP/DOWN/SMOOTH`, anything else propagates). -/
inductive ScrollDirection : Type where
  | up : ScrollDirection
  | down : ScrollDirection
  | smooth : ℚ → ScrollDirection
  | other : ScrollDirection
deriving DecidableEq

/-- The zoom factor `on_scroll` derives from the event: ×1.1 for a wheel
up tick, ×0.9 for a wheel down tick, and for smooth scrolling the sign
of the vertical delta selects the same two factors; `none` when the
handler returns `Gdk.EVENT_PROPAGATE` without touching the state. -/
def scrollFactor : ScrollDirection → Option ℚ
  | ScrollDirection.up => some (11 / 10)
  | ScrollDirection.down => some (9 / 10)
  | ScrollDirection.smooth dy =>
      if dy < 0 then some (11 / 10) else if dy > 0 then some (9 / 10) else none
  | ScrollDirection.other => none

/-- `WhiteboardArea.on_scroll`: remember the world point under the mouse,
multiply the zoom by the factor, clamp to `[min_zoom, max_zoom]`, and if
the clamped zoom differs from the old one, install it and shift the
offset so the remembered world point stays under the mouse. -/
def on_scroll (b : Board) (mouse_x mouse_y : ℚ) (dir : ScrollDirection) : Board :=
  match scrollFactor dir with
  | none => b
  | some zoom_factor =>
      let w := screen_to_world b mouse_x mouse_y
      let new_zoom := max min_zoom (min max_zoom (b.zoom * zoom_factor))
      if new_zoom ≠ b.zoom then
        let b1 := { b with zoom := new_zoom }
        let ns := world_to_screen b1 w.1 w.2
        { b1 with offset_x := b1.offset_x + (mouse_x - ns.1),
                  offset_y := b1.offset_y + (mouse_y - ns.2) }
      else b

/-- `WhiteboardArea.on_button_press`.  Button 3 starts panning; button 1
(when not panning) dispatches on the current tool: the text tool only
invokes the external dialog (no board mutation here), the shape tool
starts a zero-extent draft shape, and the default branch starts a draft
stroke whose color is the background color in eraser mode and the brush
color otherwise, tagged with the eraser flag. -/
def on_button_press (app : AppCtx) (b : Board) (button : ℕ) (ex ey : ℚ) : Board :=
  if button = 3 then
    { b with is_panning := true, pan_start_x := ex, pan_start_y := ey }
  else if button = 1 ∧ b.is_panning = false then
    let w := screen_to_world b ex ey
    if app.current_tool = Tool.text then
      b
    else if app.current_tool = Tool.shape then
      { b with shape_start_x := w.1, shape_start_y := w.2,
               current_shape := some
                 ({ type := app.current_shape_type, x := w.1, y := w.2, w := 0, h := 0,
                    color := app.brush_color, size := b.brush_size } : Shape) }
    else
      let color := if app.eraser_mode then app.bg_color else app.brush_color
      { b with current_stroke := some
                 ({ points := [(w.1, w.2)], color := color, size := b.brush_size,
                    is_eraser := app.eraser_mode } : Stroke) }
  else b

/-- `WhiteboardArea.on_motion`.  While panning, accumulate the screen
delta into the offset and update the pan anchor; otherwise, with button 1
held, either resize the draft shape to `currentWorld - anchorWorld` or
append the current world point to the draft stroke. -/
def on_motion (b : Board) (ex ey : ℚ) (button1_held : Bool) : Board :=
  if b.is_panning then
    { b with offset_x := b.offset_x + (ex - b.pan_start_x),
             offset_y := b.offset_y + (ey - b.pan_start_y),
             pan_start_x := ex, pan_start_y := ey }
  else if button1_held then
    let w := screen_to_world b ex ey
    match b.current_shape with
    | some sh =>
        { b with current_shape := some
                   ({ sh with w := w.1 - b.shape_start_x, h := w.2 - b.shape_start_y } : Shape) }
    | none =>
        match b.current_stroke with
        | some st =>
            { b with current_stroke := some
                       ({ st with points := st.points ++ [(w.1, w.2)] } : Stroke) }
        | none => b
  else b

/-- `WhiteboardArea.on_button_release`.  Button 3 ends panning.  Button 1
commits the draft shape iff `abs(w) > 5 or abs(h) > 5`, else discards it;
failing a draft shape, it commits the draft stroke iff it has at least
one point. -/
def on_button_release (b : Board) (button : ℕ) : Board :=
  if button = 3 then
    { b with is_panning := false }
  else if button = 1 then
    match b.current_shape with
    | some sh =>
        let shapes1 := if |sh.w| > 5 ∨ |sh.h| > 5 then b.shapes ++ [sh] else b.shapes
        { b with shapes := shapes1, current_shape := none }
    | none =>
        match b.current_stroke with
        | some st =>
            let strokes1 := if 0 < st.points.length then b.strokes ++ [st] else b.strokes
            { b with strokes := strokes1, current_stroke := none }
        | none => b
  else b

/-- `WhiteboardArea.add_text`: `if text.strip():` append a text item with
the app brush color and font size `max(12, self.brush_size * 4)`.
Python's truthiness of `text.strip()` holds exactly when some character
of `text` is not whitespace (whitespace modelled by `Char.isWhitespace`). -/
def add_text (app : AppCtx) (b : Board) (text : String) (x y : ℚ) : Board :=
  if text.toList.any (fun c => !c.isWhitespace) then
    { b with text_items := b.text_items ++
        [{ text := text, x := x, y := y, color := app.brush_color,
           font_size := max 12 (b.brush_size * 4) }] }
  else b

/-- `WhiteboardArea.add_image`: if either source dimension exceeds 500,
uniformly downscale (Python `int` truncation of a positive product is
`Int.floor`), then append the image dict. -/
def add_image (b : Board) (w h : ℤ) (x y : ℚ) : Board :=
  let p :=
    if 500 < w ∨ 500 < h then
      let scale : ℚ := min (500 / (w : ℚ)) (500 / (h : ℚ))
      (⌊(w : ℚ) * scale⌋, ⌊(h : ℚ) * scale⌋)
    else (w, h)
  { b with images := b.images ++ [{ x := x, y := y, width := p.1, height := p.2 }] }

/-- `WhiteboardArea.clear`: empty every collection and both drafts. -/
def clear (b : Board) : Board :=
  { b with strokes := [], current_stroke := none, shapes := [],
           current_shape := none, text_items := [], images := [] }

/-- `WhiteboardWindow.on_brush_size_changed`: store the slider value in
`self.app.board.brush_size`; the `Gtk.Scale` is created with range
`1..50`. -/
def set_brush_size (b : Board) (size : ℤ) : Board :=
  { b with brush_size := size }

/-- The persisted record produced by `get_board_data` and consumed by
`load_board_data`.  Each field is optional because `load_board_data`
reads every key with `data.get(key, default)`. -/
structure BoardData where
  strokes : Option (List Stroke)
  shapes : Option (List Shape)
  text_items : Option (List TextItem)
  offset_x : Option ℚ
  offset_y : Option ℚ
  zoom : Option ℚ
  brush_size : Option ℤ
deriving DecidableEq

/-- `WhiteboardArea.get_board_data`: serialize the collections and view
state; each stroke is re-emitted with exactly the keys
`points/color/size/is_eraser` (with `stroke.get('is_eraser', False)`,
always present in this model). -/
def get_board_data (b : Board) : BoardData :=
  { strokes := some (b.strokes.map (fun st =>
      { points := st.points, color := st.color, size := st.size,
        is_eraser := st.is_eraser })),
    shapes := some b.shapes,
    text_items := some b.text_items,
    offset_x := some b.offset_x,
    offset_y := some b.offset_y,
    zoom := some b.zoom,
    brush_size := some b.brush_size }

/-- `WhiteboardArea.load_board_data`: install each field with its
`data.get` default (`[]`, `0`, `1.0`, `3`) and reset `images` to `[]`
("Images are not saved/loaded"). -/
def load_board_data (b : Board) (data : BoardData) : Board :=
  { b with strokes := data.strokes.getD [],
           shapes := data.shapes.getD [],
           text_items := data.text_items.getD [],
           offset_x := data.offset_x.getD 0,
           offset_y := data.offset_y.getD 0,
           zoom := data.zoom.getD 1,
           brush_size := data.brush_size.getD 3,
           images := [] }

/-- Claim C1: for every board whose zoom factor lies in `[0.1, 5.0]`
(hence is nonzero) and every point `p`, `screen_to_world` and
`world_to_screen` are mutual inverses: composing them either way around
returns `p` exactly (exact rational arithmetic standing in for the
floating-point tolerance). -/
theorem screen_world_roundtrip (b : Board) (hlo : 1 / 10 ≤ b.zoom) (hhi : b.zoom ≤ 5)
    (p : Point) :
    screen_to_world b (world_to_screen b p.1 p.2).1 (world_to_screen b p.1 p.2).2 = p ∧
    world_to_screen b (screen_to_world b p.1 p.2).1 (screen_to_world b p.1 p.2).2 = p := by
  have hz : b.zoom ≠ 0 := by
    have h10 : (0 : ℚ) < 1 / 10 := by norm_num
    exact ne_of_gt (lt_of_lt_of_le h10 hlo)
  have _ : b.zoom ≤ 5 := hhi
  constructor
  · simp only [screen_to_world, world_to_screen, Prod.ext_iff]
    constructor <;> field_simp
  · simp only [screen_to_world, world_to_screen, Prod.ext_iff]
    constructor <;> field_simp

theorem screen_world_roundtrip_witness :
    ((1 : ℚ) / 10 ≤ initialBoard.zoom ∧ initialBoard.zoom ≤ 5) ∧
    (screen_to_world initialBoard
        (world_to_screen initialBoard (((2 : ℚ), (3 : ℚ)) : Point).1
          (((2 : ℚ), (3 : ℚ)) : Point).2).1
        (world_to_screen initialBoard (((2 : ℚ), (3 : ℚ)) : Point).1
          (((2 : ℚ), (3 : ℚ)) : Point).2).2 = (((2 : ℚ), (3 : ℚ)) : Point) ∧
      world_to_screen initialBoard
        (screen_to_world initialBoard (((2 : ℚ), (3 : ℚ)) : Point).1
          (((2 : ℚ), (3 : ℚ)) : Point).2).1
        (screen_to_world initialBoard (((2 : ℚ), (3 : ℚ)) : Point).1
          (((2 : ℚ), (3 : ℚ)) : Point).2).2 = (((2 : ℚ), (3 : ℚ)) : Point)) :=
  ⟨⟨by norm_num [initialBoard], by norm_num [initialBoard]⟩,
    screen_world_roundtrip initialBoard (by norm_num [initialBoard])
      (by norm_num [initialBoard]) ((2 : ℚ), (3 : ℚ))⟩

/-- Explicit description of `on_scroll` when the event yields a zoom
factor and the clamped new zoom differs from the old one. -/
lemma on_scroll_eq (b : Board) (mx my : ℚ) (dir : ScrollDirection) (f : ℚ)
    (hf : scrollFactor dir = some f)
    (hch : max min_zoom (min max_zoom (b.zoom * f)) ≠ b.zoom) :
    on_scroll b mx my dir =
      { b with
        zoom := max min_zoom (min max_zoom (b.zoom * f)),
        offset_x := b.offset_x +
          (mx - ((mx - b.offset_x) / b.zoom * max min_zoom (min max_zoom (b.zoom * f)) +
            b.offset_x)),
        offset_y := b.offset_y +
          (my - ((my - b.offset_y) / b.zoom * max min_zoom (min max_zoom (b.zoom * f)) +
            b.offset_y)) } := by
  unfold on_scroll
  rw [hf]
  simp only [screen_to_world, world_to_screen]
  rw [if_pos hch]

/-- Claim C2: whenever a scroll-zoom event at screen focus `(fx, fy)`
actually changes the zoom factor, the world point that was under
`(fx, fy)` before the zoom still maps to `(fx, fy)` afterwards, and
equivalently `world_to_screen ∘ screen_to_world` on the new state fixes
`(fx, fy)` (exactly, over ℚ). -/
theorem zoom_to_cursor (b : Board) (fx fy : ℚ) (dir : ScrollDirection) (f : ℚ)
    (hz : b.zoom ≠ 0) (hf : scrollFactor dir = some f)
    (hch : max min_zoom (min max_zoom (b.zoom * f)) ≠ b.zoom) :
    world_to_screen (on_scroll b fx fy dir) (screen_to_world b fx fy).1
      (screen_to_world b fx fy).2 = (fx, fy) ∧
    world_to_screen (on_scroll b fx fy dir)
      (screen_to_world (on_scroll b fx fy dir) fx fy).1
      (screen_to_world (on_scroll b fx fy dir) fx fy).2 = (fx, fy) := by
  have h01 : (0 : ℚ) < min_zoom := by norm_num [min_zoom]
  have hnz : max min_zoom (min max_zoom (b.zoom * f)) ≠ 0 :=
    ne_of_gt (lt_of_lt_of_le h01 (le_max_left _ _))
  have _ : b.zoom ≠ 0 := hz
  rw [on_scroll_eq b fx fy dir f hf hch]
  constructor
  · simp only [world_to_screen, screen_to_world, Prod.ext_iff]
    constructor <;> ring
  · simp only [world_to_screen, screen_to_world, Prod.ext_iff]
    constructor <;> · rw [div_mul_cancel₀ _ hnz]; ring

theorem zoom_to_cursor_witness :
    (initialBoard.zoom ≠ 0 ∧
      scrollFactor ScrollDirection.up = some (11 / 10) ∧
      max min_zoom (min max_zoom (initialBoard.zoom * (11 / 10))) ≠ initialBoard.zoom) ∧
    (world_to_screen (on_scroll initialBoard 3 4 ScrollDirection.up)
        (screen_to_world initialBoard 3 4).1 (screen_to_world initialBoard 3 4).2 = (3, 4) ∧
      world_to_screen (on_scroll initialBoard 3 4 ScrollDirection.up)
        (screen_to_world (on_scroll initialBoard 3 4 ScrollDirection.up) 3 4).1
        (screen_to_world (on_scroll initialBoard 3 4 ScrollDirection.up) 3 4).2 = (3, 4)) :=
  ⟨⟨by norm_num [initialBoard], rfl,
      by norm_num [initialBoard, min_zoom, max_zoom]⟩,
    zoom_to_cursor initialBoard 3 4 ScrollDirection.up (11 / 10)
      (by norm_num [initialBoard]) rfl
      (by norm_num [initialBoard, min_zoom, max_zoom])⟩

/-- `on_scroll` is the identity when the event carries no zoom factor. -/
lemma on_scroll_none_eq (b : Board) (mx my : ℚ) (dir : ScrollDirection)
    (hf : scrollFactor dir = none) : on_scroll b mx my dir = b := by
  unfold on_scroll
  rw [hf]

/-- `on_scroll` is the identity when the clamped zoom equals the old zoom. -/
lemma on_scroll_self_eq (b : Board) (mx my : ℚ) (dir : ScrollDirection) (f : ℚ)
    (hf : scrollFactor dir = some f)
    (hch : max min_zoom (min max_zoom (b.zoom * f)) = b.zoom) :
    on_scroll b mx my dir = b := by
  unfold on_scroll
  rw [hf]
  simp only [screen_to_world, world_to_screen]
  rw [if_neg (not_ne_iff.mpr hch)]

/-- A scroll event keeps the zoom inside `[0.1, 5]` and never touches the
brush size. -/
lemma on_scroll_view (b : Board) (mx my : ℚ) (dir : ScrollDirection)
    (h1 : 1 / 10 ≤ b.zoom) (h2 : b.zoom ≤ 5) :
    (1 / 10 ≤ (on_scroll b mx my dir).zoom ∧ (on_scroll b mx my dir).zoom ≤ 5) ∧
    (on_scroll b mx my dir).brush_size = b.brush_size := by
  cases hf : scrollFactor dir with
  | none =>
      rw [on_scroll_none_eq b mx my dir hf]
      exact ⟨⟨h1, h2⟩, rfl⟩
  | some f =>
      by_cases hch : max min_zoom (min max_zoom (b.zoom * f)) = b.zoom
      · rw [on_scroll_self_eq b mx my dir f hf hch]
        exact ⟨⟨h1, h2⟩, rfl⟩
      · rw [on_scroll_eq b mx my dir f hf hch]
        refine ⟨⟨?_, ?_⟩, rfl⟩
        · exact le_trans (by norm_num [min_zoom]) (le_max_left min_zoom _)
        · exact max_le (by norm_num [min_zoom])
            (le_trans (min_le_left max_zoom _) (by norm_num [max_zoom]))

/-- A button press never touches the zoom or the brush size. -/
lemma on_button_press_view (app : AppCtx) (b : Board) (button : ℕ) (ex ey : ℚ) :
    (on_button_press app b button ex ey).zoom = b.zoom ∧
    (on_button_press app b button ex ey).brush_size = b.brush_size := by
  unfold on_button_press
  split_ifs <;> exact ⟨rfl, rfl⟩

/-- A pointer motion never touches the zoom or the brush size. -/
lemma on_motion_view (b : Board) (ex ey : ℚ) (held : Bool) :
    (on_motion b ex ey held).zoom = b.zoom ∧
    (on_motion b ex ey held).brush_size = b.brush_size := by
  unfold on_motion
  split_ifs <;> first
    | exact ⟨rfl, rfl⟩
    | (cases b.current_shape <;> cases b.current_stroke <;> exact ⟨rfl, rfl⟩)

/-- A button release never touches the zoom or the brush size. -/
lemma on_button_release_view (b : Board) (button : ℕ) :
    (on_button_release b button).zoom = b.zoom ∧
    (on_button_release b button).brush_size = b.brush_size := by
  unfold on_button_release
  split_ifs <;> first
    | exact ⟨rfl, rfl⟩
    | (cases b.current_shape <;> cases b.current_stroke <;> exact ⟨rfl, rfl⟩)

/-- `add_text` never touches the zoom or the brush size. -/
lemma add_text_view (app : AppCtx) (b : Board) (t : String) (x y : ℚ) :
    (add_text app b t x y).zoom = b.zoom ∧
    (add_text app b t x y).brush_size = b.brush_size := by
  unfold add_text
  split_ifs <;> exact ⟨rfl, rfl⟩

/-- `add_image` never touches the zoom or the brush size. -/
lemma add_image_view (b : Board) (w h : ℤ) (x y : ℚ) :
    (add_image b w h x y).zoom = b.zoom ∧
    (add_image b w h x y).brush_size = b.brush_size :=
  ⟨rfl, rfl⟩

/-- `clear` never touches the zoom or the brush size. -/
lemma clear_view (b : Board) :
    (clear b).zoom = b.zoom ∧ (clear b).brush_size = b.brush_size :=
  ⟨rfl, rfl⟩

/-- Loading a record persisted by `get_board_data` restores the saved
zoom and brush size verbatim. -/
lemma load_get_view (b b' : Board) :
    (load_board_data b' (get_board_data b)).zoom = b.zoom ∧
    (load_board_data b' (get_board_data b)).brush_size = b.brush_size :=
  ⟨rfl, rfl⟩

/-- The board states reachable through the canvas-engine operations: the
freshly constructed board, scroll/press/motion/release events, the text
and image insertions, clearing, the brush-size slider (whose `Gtk.Scale`
range is `1..50`), and loading a document that was persisted with
`get_board_data` from a reachable board. -/
inductive Reachable : Board → Prop where
  | init : Reachable initialBoard
  | scroll (b : Board) (mx my : ℚ) (dir : ScrollDirection) :
      Reachable b → Reachable (on_scroll b mx my dir)
  | press (app : AppCtx) (b : Board) (button : ℕ) (ex ey : ℚ) :
      Reachable b → Reachable (on_button_press app b button ex ey)
  | motion (b : Board) (ex ey : ℚ) (held : Bool) :
      Reachable b → Reachable (on_motion b ex ey held)
  | release (b : Board) (button : ℕ) :
      Reachable b → Reachable (on_button_release b button)
  | text_input (app : AppCtx) (b : Board) (t : String) (x y : ℚ) :
      Reachable b → Reachable (add_text app b t x y)
  | image (b : Board) (w h : ℤ) (x y : ℚ) :
      Reachable b → Reachable (add_image b w h x y)
  | clear_all (b : Board) : Reachable b → Reachable (clear b)
  | brush (b : Board) (size : ℤ) (hlo : 1 ≤ size) (hhi : size ≤ 50) :
      Reachable b → Reachable (set_brush_size b size)
  | load (b b' : Board) : Reachable b → Reachable b' →
      Reachable (load_board_data b' (get_board_data b))

/-- The zoom/brush bounds hold in every reachable state. -/
lemma reachable_bounds_aux (b : Board) (hb : Reachable b) :
    1 / 10 ≤ b.zoom ∧ b.zoom ≤ 5 ∧ 1 ≤ b.brush_size ∧ b.brush_size ≤ 50 := by
  induction hb with
  | init => refine ⟨?_, ?_, ?_, ?_⟩ <;> norm_num [initialBoard]
  | scroll b mx my dir _ ih =>
      obtain ⟨h1, h2, h3, h4⟩ := ih
      obtain ⟨⟨h1', h2'⟩, hbr⟩ := on_scroll_view b mx my dir h1 h2
      exact ⟨h1', h2', hbr ▸ h3, hbr ▸ h4⟩
  | press app b button ex ey _ ih =>
      obtain ⟨h1, h2, h3, h4⟩ := ih
      obtain ⟨hz, hbr⟩ := on_button_press_view app b button ex ey
      exact ⟨hz ▸ h1, hz ▸ h2, hbr ▸ h3, hbr ▸ h4⟩
  | motion b ex ey held _ ih =>
      obtain ⟨h1, h2, h3, h4⟩ := ih
      obtain ⟨hz, hbr⟩ := on_motion_view b ex ey held
      exact ⟨hz ▸ h1, hz ▸ h2, hbr ▸ h3, hbr ▸ h4⟩
  | release b button _ ih =>
      obtain ⟨h1, h2, h3, h4⟩ := ih
      obtain ⟨hz, hbr⟩ := on_button_release_view b button
      exact ⟨hz ▸ h1, hz ▸ h2, hbr ▸ h3, hbr ▸ h4⟩
  | text_input app b t x y _ ih =>
      obtain ⟨h1, h2, h3, h4⟩ := ih
      obtain ⟨hz, hbr⟩ := add_text_view app b t x y
      exact ⟨hz ▸ h1, hz ▸ h2, hbr ▸ h3, hbr ▸ h4⟩
  | image b w h x y _ ih =>
      obtain ⟨h1, h2, h3, h4⟩ := ih
      exact ⟨h1, h2, h3, h4⟩
  | clear_all b _ ih =>
      obtain ⟨h1, h2, h3, h4⟩ := ih
      exact ⟨h1, h2, h3, h4⟩
  | brush b size hlo hhi _ ih =>
      obtain ⟨h1, h2, _, _⟩ := ih
      exact ⟨h1, h2, hlo, hhi⟩
  | load b b' hb1 hb2 ih1 ih2 =>
      obtain ⟨h1, h2, h3, h4⟩ := ih1
      exact ⟨h1, h2, h3, h4⟩

/-- At the lower zoom bound, a zoom-out tick is a no-op (the clamp pins
the zoom at `0.1`). -/
lemma zoom_out_pinned (b : Board) (mx my : ℚ) (hz : b.zoom = 1 / 10) :
    (on_scroll b mx my ScrollDirection.down).zoom = 1 / 10 := by
  have hmax : max min_zoom (min max_zoom (b.zoom * (9 / 10))) = b.zoom := by
    rw [hz]
    norm_num [min_zoom, max_zoom, min_def, max_def]
  rw [on_scroll_self_eq b mx my ScrollDirection.down (9 / 10) rfl hmax, hz]

/-- At the upper zoom bound, a zoom-in tick is a no-op (the clamp pins
the zoom at `5`). -/
lemma zoom_in_pinned (b : Board) (mx my : ℚ) (hz : b.zoom = 5) :
    (on_scroll b mx my ScrollDirection.up).zoom = 5 := by
  have hmax : max min_zoom (min max_zoom (b.zoom * (11 / 10))) = b.zoom := by
    rw [hz]
    norm_num [min_zoom, max_zoom, min_def, max_def]
  rw [on_scroll_self_eq b mx my ScrollDirection.up (11 / 10) rfl hmax, hz]

/-- Claim C3: in every reachable board state the zoom factor lies in
`[0.1, 5.0]` and the brush size lies in `[1, 50]` (every operation,
scroll-zoom and loading a persisted document included, preserves the
bounds), and the scroll clamp pins: a further zoom-out tick at zoom
`0.1` leaves the zoom at `0.1`, and a further zoom-in tick at zoom `5`
leaves it at `5`. -/
theorem view_state_bounds (b : Board) (hb : Reachable b) :
    ((1 : ℚ) / 10 ≤ b.zoom ∧ b.zoom ≤ 5 ∧ 1 ≤ b.brush_size ∧ b.brush_size ≤ 50) ∧
    (∀ mx my : ℚ, b.zoom = 1 / 10 →
      (on_scroll b mx my ScrollDirection.down).zoom = 1 / 10) ∧
    (∀ mx my : ℚ, b.zoom = 5 →
      (on_scroll b mx my ScrollDirection.up).zoom = 5) :=
  ⟨reachable_bounds_aux b hb,
    fun mx my hz => zoom_out_pinned b mx my hz,
    fun mx my hz => zoom_in_pinned b mx my hz⟩

theorem view_state_bounds_witness :
    Reachable initialBoard ∧
    ((1 : ℚ) / 10 ≤ initialBoard.zoom ∧ initialBoard.zoom ≤ 5 ∧
      1 ≤ initialBoard.brush_size ∧ initialBoard.brush_size ≤ 50) :=
  ⟨Reachable.init, (view_state_bounds initialBoard Reachable.init).1⟩

/-- The per-axis Catmull-Rom evaluation from the body of the `for t`
loop of `catmull_rom_spline` in `src/main.py` (`t2 = t_norm * t_norm`,
`t3 = t2 * t_norm`, then the 0.5-scaled cubic). -/
def catmullRomCoord (c0 c1 c2 c3 t_norm : ℚ) : ℚ :=
  let t2 := t_norm * t_norm
  let t3 := t2 * t_norm
  (1 / 2) * ((2 * c1) + (-c0 + c2) * t_norm + (2 * c0 - 5 * c1 + 4 * c2 - c3) * t2 +
    (-c0 + 3 * c1 - 3 * c2 + c3) * t3)

/-- One span of the Python loop: for `p0..p3 = points[i..i+3]`, emit the
points for `t in range(1, num_segments + 1)` with `t_norm = t / num_segments`. -/
def catmullRomSpan (points : List Point) (num_segments : ℕ) (i : ℕ) : List Point :=
  (List.range' 1 num_segments).map (fun (t : ℕ) =>
    let p0 := points.getD i (0, 0)
    let p1 := points.getD (i + 1) (0, 0)
    let p2 := points.getD (i + 2) (0, 0)
    let p3 := points.getD (i + 3) (0, 0)
    let t_norm : ℚ := (t : ℚ) / (num_segments : ℚ)
    (catmullRomCoord p0.1 p1.1 p2.1 p3.1 t_norm,
     catmullRomCoord p0.2 p1.2 p2.2 p3.2 t_norm))

/-- `catmull_rom_spline(points, num_segments)` from `src/main.py`: fewer
than 4 points are returned unchanged; otherwise `[points[0]]`, then for
`i in range(len(points) - 3)` the span points, then `points[-2]` and
`points[-1]`.  (The embedding is a pure function, so the input list is
never mutated.) -/
def catmull_rom_spline (points : List Point) (num_segments : ℕ) : List Point :=
  if points.length < 4 then points
  else
    [points.getD 0 (0, 0)] ++
    (List.range (points.length - 3)).flatMap (catmullRomSpan points num_segments) ++
    [points.getD (points.length - 2) (0, 0), points.getD (points.length - 1) (0, 0)]

/-- One span as §4.2 of the specification words it: `segmentsPerSpan`
interpolated points per span using the basis
`0.5*(2*p1 + (-p0+p2)*t + (2p0-5p1+4p2-p3)*t² + (-p0+3p1-3p2+p3)*t³)`,
evaluated independently per axis for `t` stepping `1/s, 2/s, ..., 1`. -/
def smoothSpecSpan (ps : List Point) (s : ℕ) (i : ℕ) : List Point :=
  (List.range s).map (fun (j : ℕ) =>
    let p0 := ps.getD i (0, 0)
    let p1 := ps.getD (i + 1) (0, 0)
    let p2 := ps.getD (i + 2) (0, 0)
    let p3 := ps.getD (i + 3) (0, 0)
    let t : ℚ := ((j : ℚ) + 1) / (s : ℚ)
    ((1 / 2) * (2 * p1.1 + (-p0.1 + p2.1) * t + (2 * p0.1 - 5 * p1.1 + 4 * p2.1 - p3.1) * t ^ 2 +
       (-p0.1 + 3 * p1.1 - 3 * p2.1 + p3.1) * t ^ 3),
     (1 / 2) * (2 * p1.2 + (-p0.2 + p2.2) * t + (2 * p0.2 - 5 * p1.2 + 4 * p2.2 - p3.2) * t ^ 2 +
       (-p0.2 + 3 * p1.2 - 3 * p2.2 + p3.2) * t ^ 3)))

/-- The smoothing contract as the specification words it (§4.2 / claim
C4): identity below 4 points, otherwise
`[first] ++ concatenation of the spans in input order ++ [second-to-last, last]`. -/
def smoothSpec (ps : List Point) (s : ℕ) : List Point :=
  if ps.length < 4 then ps
  else
    [ps.getD 0 (0, 0)] ++
    (List.range (ps.length - 3)).flatMap (smoothSpecSpan ps s) ++
    [ps.getD (ps.length - 2) (0, 0), ps.getD (ps.length - 1) (0, 0)]

/-- Each Python-loop span equals the specification's span. -/
lemma catmullRomSpan_eq_spec (ps : List Point) (s : ℕ) (i : ℕ) :
    catmullRomSpan ps s i = smoothSpecSpan ps s i := by
  unfold catmullRomSpan smoothSpecSpan
  rw [List.range'_eq_map_range, List.map_map]
  apply List.map_congr_left
  intro j hj
  simp only [Function.comp]
  unfold catmullRomCoord
  refine Prod.ext ?_ ?_ <;> · push_cast; ring

/-- Claim C4: for every input point sequence and every
`segmentsPerSpan ≥ 1`, `catmull_rom_spline` computes exactly the output
the specification describes — identity below 4 points, else the first
input point, the Catmull-Rom span points for `t = 1/s ... 1` in input
order, and the last two input points; purity of the embedding gives
non-mutation of the input. -/
theorem catmull_rom_spline_correct (ps : List Point) (s : ℕ) (hs : 1 ≤ s) :
    catmull_rom_spline ps s = smoothSpec ps s := by
  have _ : 1 ≤ s := hs
  unfold catmull_rom_spline smoothSpec
  split
  · rfl
  · rw [show catmullRomSpan ps s = smoothSpecSpan ps s from funext (catmullRomSpan_eq_spec ps s)]

theorem catmull_rom_spline_correct_witness :
    1 ≤ 2 ∧
    catmull_rom_spline [((0 : ℚ), (0 : ℚ)), (1, 0), (2, 1), (3, 1)] 2 =
      smoothSpec [((0 : ℚ), (0 : ℚ)), (1, 0), (2, 1), (3, 1)] 2 :=
  ⟨by norm_num,
    catmull_rom_spline_correct [((0 : ℚ), (0 : ℚ)), (1, 0), (2, 1), (3, 1)] 2 (by norm_num)⟩

/-- Explicit description of a primary-button release while a draft shape
is in progress. -/
lemma on_button_release_shape_eq (b : Board) (sh : Shape)
    (h : b.current_shape = some sh) :
    on_button_release b 1 =
      { b with
        shapes := if |sh.w| > 5 ∨ |sh.h| > 5 then b.shapes ++ [sh] else b.shapes,
        current_shape := none } := by
  unfold on_button_release
  rw [h]
  norm_num

/-- Claim C5: the primary-button release commits the draft shape to the
shape collection iff `|w| > 5` or `|h| > 5`, comparing the raw
world-unit drag delta with no zoom correction, and discards the draft
otherwise; in particular a `|w| = |h| = 3` drag is never committed and a
`|w| = 10` drag is committed regardless of `h`.  The draft slot is
cleared in every case. -/
theorem shape_commit_threshold (b : Board) (sh : Shape)
    (h : b.current_shape = some sh) :
    (on_button_release b 1).current_shape = none ∧
    ((on_button_release b 1).shapes = b.shapes ++ [sh] ↔ |sh.w| > 5 ∨ |sh.h| > 5) ∧
    (¬(|sh.w| > 5 ∨ |sh.h| > 5) → (on_button_release b 1).shapes = b.shapes) ∧
    (|sh.w| = 3 ∧ |sh.h| = 3 → (on_button_release b 1).shapes = b.shapes) ∧
    (|sh.w| = 10 → (on_button_release b 1).shapes = b.shapes ++ [sh]) := by
  rw [on_button_release_shape_eq b sh h]
  refine ⟨rfl, ?_, ?_, ?_, ?_⟩
  · by_cases hc : |sh.w| > 5 ∨ |sh.h| > 5
    · simp [hc]
    · simp [hc]
  · intro hc
    simp [hc]
  · rintro ⟨hw, hh⟩
    have hc : ¬(|sh.w| > 5 ∨ |sh.h| > 5) := by
      rw [hw, hh]
      norm_num
    simp [hc]
  · intro hw
    have hc : |sh.w| > 5 ∨ |sh.h| > 5 := Or.inl (by rw [hw]; norm_num)
    simp [hc]

/-- A concrete in-progress draft shape with `w = 10`, `h = 0`. -/
def shapeDraft : Shape :=
  { type := ShapeType.rect, x := 0, y := 0, w := 10, h := 0,
    color := (0, 0, 0), size := 3 }

/-- A board holding `shapeDraft` as the in-progress shape. -/
def shapeDraftBoard : Board :=
  { initialBoard with current_shape := some shapeDraft }

theorem shape_commit_threshold_witness :
    shapeDraftBoard.current_shape = some shapeDraft ∧
    (on_button_release shapeDraftBoard 1).current_shape = none ∧
    ((on_button_release shapeDraftBoard 1).shapes =
        shapeDraftBoard.shapes ++ [shapeDraft] ↔
      |shapeDraft.w| > 5 ∨ |shapeDraft.h| > 5) ∧
    (¬(|shapeDraft.w| > 5 ∨ |shapeDraft.h| > 5) →
      (on_button_release shapeDraftBoard 1).shapes = shapeDraftBoard.shapes) ∧
    (|shapeDraft.w| = 3 ∧ |shapeDraft.h| = 3 →
      (on_button_release shapeDraftBoard 1).shapes = shapeDraftBoard.shapes) ∧
    (|shapeDraft.w| = 10 →
      (on_button_release shapeDraftBoard 1).shapes =
        shapeDraftBoard.shapes ++ [shapeDraft]) :=
  ⟨rfl, shape_commit_threshold shapeDraftBoard shapeDraft rfl⟩

/-- Explicit description of a primary-button press with the brush tool
(the default branch of `on_button_press`). -/
lemma on_button_press_brush_eq (app : AppCtx) (b : Board) (ex ey : ℚ)
    (hpan : b.is_panning = false) (htool : app.current_tool = Tool.brush) :
    on_button_press app b 1 ex ey =
      { b with current_stroke := some
                 ({ points := [((screen_to_world b ex ey).1, (screen_to_world b ex ey).2)],
                    color := if app.eraser_mode then app.bg_color else app.brush_color,
                    size := b.brush_size, is_eraser := app.eraser_mode } : Stroke) } := by
  unfold on_button_press
  rw [if_neg (by norm_num), if_pos ⟨rfl, hpan⟩, if_neg (by rw [htool]; exact nofun),
    if_neg (by rw [htool]; exact nofun)]

/-- Explicit description of a pointer move while drawing a stroke. -/
lemma on_motion_stroke_eq (b : Board) (ex ey : ℚ) (st : Stroke)
    (hpan : b.is_panning = false) (hsh : b.current_shape = none)
    (hst : b.current_stroke = some st) :
    on_motion b ex ey true =
      { b with current_stroke := some
                 ({ st with points := st.points ++
                     [((screen_to_world b ex ey).1, (screen_to_world b ex ey).2)] } : Stroke) } := by
  unfold on_motion
  rw [hpan, hsh, hst]
  norm_num

/-- Explicit description of a primary-button release committing a
non-empty draft stroke. -/
lemma on_button_release_stroke_eq (b : Board) (st : Stroke)
    (hsh : b.current_shape = none) (hst : b.current_stroke = some st)
    (hne : 0 < st.points.length) :
    on_button_release b 1 =
      { b with strokes := b.strokes ++ [st], current_stroke := none } := by
  unfold on_button_release
  rw [hsh, hst]
  norm_num [hne]

/-- Claim C6: on a fresh document with the brush tool, the gesture
pointer-down at world `(0,0)`, move to `(10,0)`, move to `(10,10)`,
pointer-up yields exactly one committed stroke with point sequence
`[(0,0),(10,0),(10,10)]` (every move appends one point, no filtering),
and clears the draft slot. -/
theorem brush_gesture_single_stroke :
    (on_button_release
        (on_motion (on_motion (on_button_press initialApp initialBoard 1 0 0) 10 0 true)
          10 10 true) 1).strokes =
      [{ points := [((0 : ℚ), (0 : ℚ)), (10, 0), (10, 10)], color := (0, 0, 0),
         size := 3, is_eraser := false }] ∧
    (on_button_release
        (on_motion (on_motion (on_button_press initialApp initialBoard 1 0 0) 10 0 true)
          10 10 true) 1).current_stroke = none := by
  have e1 : on_button_press initialApp initialBoard 1 0 0 =
      { initialBoard with current_stroke := some
                            ({ points := [((0 : ℚ), (0 : ℚ))], color := (0, 0, 0), size := 3,
                               is_eraser := false } : Stroke) } := by
    rw [on_button_press_brush_eq initialApp initialBoard 0 0 rfl rfl]
    norm_num [initialApp, initialBoard, screen_to_world]
  have e2 : on_motion (on_button_press initialApp initialBoard 1 0 0) 10 0 true =
      { initialBoard with current_stroke := some
                            ({ points := [((0 : ℚ), (0 : ℚ)), (10, 0)], color := (0, 0, 0),
                               size := 3, is_eraser := false } : Stroke) } := by
    rw [e1, on_motion_stroke_eq _ 10 0 _ rfl rfl rfl]
    norm_num [initialBoard, screen_to_world]
  have e3 : on_motion (on_motion (on_button_press initialApp initialBoard 1 0 0) 10 0 true)
        10 10 true =
      { initialBoard with current_stroke := some
                            ({ points := [((0 : ℚ), (0 : ℚ)), (10, 0), (10, 10)],
                               color := (0, 0, 0), size := 3,
                               is_eraser := false } : Stroke) } := by
    rw [e2, on_motion_stroke_eq _ 10 10 _ rfl rfl rfl]
    norm_num [initialBoard, screen_to_world]
  rw [e3, on_button_release_stroke_eq _ _ rfl rfl (by norm_num)]
  exact ⟨rfl, rfl⟩

/-- Claim C7: serializing with `get_board_data` and loading the result
with `load_board_data` (into any target board) restores the strokes
(with per-stroke points, color, size and eraser flag), shapes, text
items, `offset_x`, `offset_y`, zoom and brush size exactly, and leaves
the image collection empty — images do not survive the round trip. -/
theorem save_load_roundtrip (b target : Board) :
    (load_board_data target (get_board_data b)).strokes = b.strokes ∧
    (load_board_data target (get_board_data b)).shapes = b.shapes ∧
    (load_board_data target (get_board_data b)).text_items = b.text_items ∧
    (load_board_data target (get_board_data b)).offset_x = b.offset_x ∧
    (load_board_data target (get_board_data b)).offset_y = b.offset_y ∧
    (load_board_data target (get_board_data b)).zoom = b.zoom ∧
    (load_board_data target (get_board_data b)).brush_size = b.brush_size ∧
    (load_board_data target (get_board_data b)).images = [] := by
  refine ⟨?_, rfl, rfl, rfl, rfl, rfl, rfl, rfl⟩
  have hid : (fun st : Stroke =>
      ({ points := st.points, color := st.color, size := st.size,
         is_eraser := st.is_eraser } : Stroke)) = id := by
    funext st
    rfl
  show (b.strokes.map (fun st =>
      ({ points := st.points, color := st.color, size := st.size,
         is_eraser := st.is_eraser } : Stroke))) = b.strokes
  rw [hid, List.map_id]

/-- Claim C8: `add_text` appends a text item iff the string has at least
one non-whitespace character; the appended item carries the string, the
anchor, the app brush color and font size `max(12, brush_size * 4)`;
for whitespace-only strings the text collection is unchanged (the
operation is total — no error path exists in the embedding). -/
theorem add_text_correct (app : AppCtx) (b : Board) (t : String) (x y : ℚ) :
    ((∃ c ∈ t.toList, ¬c.isWhitespace = true) →
      (add_text app b t x y).text_items =
        b.text_items ++
          [{ text := t, x := x, y := y, color := app.brush_color,
             font_size := max 12 (b.brush_size * 4) }]) ∧
    ((∀ c ∈ t.toList, c.isWhitespace = true) →
      (add_text app b t x y).text_items = b.text_items) := by
  constructor
  · intro hex
    have hcond : t.toList.any (fun c => !c.isWhitespace) = true := by
      rw [List.any_eq_true]
      obtain ⟨c, hc, hw⟩ := hex
      exact ⟨c, hc, by simpa using hw⟩
    unfold add_text
    rw [if_pos hcond]
  · intro hall
    have hcond : ¬t.toList.any (fun c => !c.isWhitespace) = true := by
      rw [List.any_eq_true]
      rintro ⟨c, hc, hw⟩
      exact (by simpa using hw : ¬c.isWhitespace = true) (hall c hc)
    unfold add_text
    rw [if_neg hcond]

theorem add_text_correct_witness :
    (∃ c ∈ "a".toList, ¬c.isWhitespace = true) ∧
    (add_text initialApp initialBoard "a" 1 2).text_items =
      initialBoard.text_items ++
        [{ text := "a", x := 1, y := 2, color := initialApp.brush_color,
           font_size := max 12 (initialBoard.brush_size * 4) }] :=
  ⟨⟨'a', by decide, by decide⟩,
    (add_text_correct initialApp initialBoard "a" 1 2).1 ⟨'a', by decide, by decide⟩⟩

/-- The `getD` fallback stroke used to state per-index properties. -/
def defaultStroke : Stroke :=
  { points := [], color := (0, 0, 0), size := 0, is_eraser := false }

/-- Modelled from the spec: the source has no recolor pass — §8 of the
specification describes re-applying a "recolor eraser strokes" pass
after the background color is toggled; it sets the color of every
eraser-tagged stroke to the new background color and leaves every other
stroke unchanged. -/
def recolor_eraser_strokes (b : Board) (new_bg : Color) : Board :=
  { b with strokes := b.strokes.map (fun st =>
      if st.is_eraser then { st with color := new_bg } else st) }

/-- A sequence of pointer-move events delivered with button 1 held. -/
def apply_moves (b : Board) (moves : List (ℚ × ℚ)) : Board :=
  moves.foldl (fun acc m => on_motion acc m.1 m.2 true) b

/-- While a draft stroke is being drawn (not panning, no draft shape),
pointer moves only append points: the draft keeps its color, size and
eraser flag, and the committed collections are untouched. -/
lemma apply_moves_stroke (moves : List (ℚ × ℚ)) (b : Board) (pts : List Point)
    (c : Color) (sz : ℤ) (e : Bool) (hpan : b.is_panning = false)
    (hsh : b.current_shape = none)
    (hst : b.current_stroke = some { points := pts, color := c, size := sz, is_eraser := e }) :
    ∃ pts' : List Point,
      (apply_moves b moves).current_stroke =
        some { points := pts ++ pts', color := c, size := sz, is_eraser := e } ∧
      (apply_moves b moves).strokes = b.strokes ∧
      (apply_moves b moves).current_shape = none ∧
      (apply_moves b moves).is_panning = false := by
  induction moves generalizing b pts with
  | nil => exact ⟨[], by simpa using hst, rfl, hsh, hpan⟩
  | cons m rest ih =>
      have hm := on_motion_stroke_eq b m.1 m.2
        { points := pts, color := c, size := sz, is_eraser := e } hpan hsh hst
      have hb1pan : (on_motion b m.1 m.2 true).is_panning = false := by
        rw [hm]
        exact hpan
      have hb1sh : (on_motion b m.1 m.2 true).current_shape = none := by
        rw [hm]
        exact hsh
      have hb1st : (on_motion b m.1 m.2 true).current_stroke =
          some { points := pts ++ [((screen_to_world b m.1 m.2).1, (screen_to_world b m.1 m.2).2)],
                 color := c, size := sz, is_eraser := e } := by
        rw [hm]
      have hb1strokes : (on_motion b m.1 m.2 true).strokes = b.strokes := by
        rw [hm]
      obtain ⟨pts', h1, h2, h3, h4⟩ := ih (on_motion b m.1 m.2 true) _ hb1pan hb1sh hb1st
      refine ⟨((screen_to_world b m.1 m.2).1, (screen_to_world b m.1 m.2).2) :: pts',
        ?_, ?_, h3, h4⟩
      · rw [List.append_assoc] at h1
        exact h1
      · rw [hb1strokes] at h2
        exact h2

/-- Claim C9: a stroke committed by a full eraser-mode brush gesture
(press, any move sequence, release, under a fixed app context — the
interaction loop is single-threaded, so the background color at press
time is the background color at commit time) lands in the stroke
collection with color equal to the background color and the eraser tag
set; and the recolor pass sets the color of every eraser-tagged stroke
to the new background color while leaving every non-eraser stroke
unaltered. -/
theorem eraser_stroke_color (app : AppCtx) (b : Board) (ex ey : ℚ)
    (moves : List (ℚ × ℚ)) (hpan : b.is_panning = false)
    (hsh : b.current_shape = none) (htool : app.current_tool = Tool.brush)
    (her : app.eraser_mode = true) :
    (∃ pts : List Point,
      (on_button_release (apply_moves (on_button_press app b 1 ex ey) moves) 1).strokes =
        b.strokes ++
          [{ points := pts, color := app.bg_color, size := b.brush_size,
             is_eraser := true }]) ∧
    (∀ (b' : Board) (new_bg : Color) (i : ℕ), i < b'.strokes.length →
      (recolor_eraser_strokes b' new_bg).strokes.getD i defaultStroke =
        (if (b'.strokes.getD i defaultStroke).is_eraser = true then
          { b'.strokes.getD i defaultStroke with color := new_bg }
         else b'.strokes.getD i defaultStroke)) := by
  constructor
  · have hp := on_button_press_brush_eq app b ex ey hpan htool
    rw [her] at hp
    have hb1pan : (on_button_press app b 1 ex ey).is_panning = false := by
      rw [hp]
      exact hpan
    have hb1sh : (on_button_press app b 1 ex ey).current_shape = none := by
      rw [hp]
      exact hsh
    have hb1st : (on_button_press app b 1 ex ey).current_stroke =
        some { points := [((screen_to_world b ex ey).1, (screen_to_world b ex ey).2)],
               color := app.bg_color, size := b.brush_size, is_eraser := true } := by
      rw [hp]
      rfl
    have hb1strokes : (on_button_press app b 1 ex ey).strokes = b.strokes := by
      rw [hp]
    obtain ⟨pts', h1, h2, h3, h4⟩ :=
      apply_moves_stroke moves (on_button_press app b 1 ex ey) _ _ _ _ hb1pan hb1sh hb1st
    have hrel := on_button_release_stroke_eq
      (apply_moves (on_button_press app b 1 ex ey) moves) _ h3 h1 (by simp)
    refine ⟨((screen_to_world b ex ey).1, (screen_to_world b ex ey).2) :: pts', ?_⟩
    rw [hrel]
    show (apply_moves (on_button_press app b 1 ex ey) moves).strokes ++ _ = _
    rw [h2, hb1strokes]
    rfl
  · intro b' new_bg i hi
    show (b'.strokes.map (fun st =>
        if st.is_eraser then { st with color := new_bg } else st)).getD i defaultStroke = _
    rw [List.getD_eq_getElem?_getD, List.getElem?_map, List.getElem?_eq_getElem hi,
      List.getD_eq_getElem?_getD, List.getElem?_eq_getElem hi]
    rfl

/-- The app context of an eraser gesture on a light board: eraser mode
on (`on_toggle_eraser` also forces the brush tool). -/
def eraserApp : AppCtx :=
  { bg_color := (1, 1, 1), brush_color := (0, 0, 0), eraser_mode := true,
    current_tool := Tool.brush, current_shape_type := ShapeType.rect }

theorem eraser_stroke_color_witness :
    (initialBoard.is_panning = false ∧ initialBoard.current_shape = none ∧
      eraserApp.current_tool = Tool.brush ∧ eraserApp.eraser_mode = true) ∧
    ((∃ pts : List Point,
      (on_button_release
          (apply_moves (on_button_press eraserApp initialBoard 1 0 0) [(10, 0)]) 1).strokes =
        initialBoard.strokes ++
          [{ points := pts, color := eraserApp.bg_color, size := initialBoard.brush_size,
             is_eraser := true }]) ∧
    (∀ (b' : Board) (new_bg : Color) (i : ℕ), i < b'.strokes.length →
      (recolor_eraser_strokes b' new_bg).strokes.getD i defaultStroke =
        (if (b'.strokes.getD i defaultStroke).is_eraser = true then
          { b'.strokes.getD i defaultStroke with color := new_bg }
         else b'.strokes.getD i defaultStroke))) :=
  ⟨⟨rfl, rfl, rfl, rfl⟩,
    eraser_stroke_color eraserApp initialBoard 0 0 [(10, 0)] rfl rfl rfl rfl⟩

/-- Claim C10: `clear` empties the stroke, shape, text and image
collections, discards both in-progress drafts, and leaves `offset_x`,
`offset_y`, `zoom` and `brush_size` unchanged. -/
theorem clear_empties_collections (b : Board) :
    (clear b).strokes = [] ∧ (clear b).current_stroke = none ∧
    (clear b).shapes = [] ∧ (clear b).current_shape = none ∧
    (clear b).text_items = [] ∧ (clear b).images = [] ∧
    (clear b).offset_x = b.offset_x ∧ (clear b).offset_y = b.offset_y ∧
    (clear b).zoom = b.zoom ∧ (clear b).brush_size = b.brush_size :=
  ⟨rfl, rfl, rfl, rfl, rfl, rfl, rfl, rfl, rfl, rfl⟩

end Aboard
